import Mathlib

/-!
Verification of the reverse-diffusion sampling engine in
`src/task/diffusion.py` (latent-dac-amt).

The Python code is shallowly embedded: pure tensor arithmetic is modelled
element-wise over exact fields (ℚ where the code is plain field arithmetic,
ℝ where the code uses `cos`/`sqrt`), schedule arrays become functions of the
timestep index, random draws become explicit arguments, and fallible calls
return `Option`/`Except`.
-/

namespace Diffusion

/-! ### Forward process (src/task/diffusion.py, `q_sample` / `extract_x0`)

`q_sample(x_start, t, sqrt_alphas_cumprod, sqrt_one_minus_alphas_cumprod, noise=None)`
returns `sqrt_alphas_cumprod[t] * x_start + sqrt_one_minus_alphas_cumprod[t] * noise`.
The body contains no `if noise is None: noise = randn_like(x_start)` guard, so a
call with `noise=None` reaches `sqrt_one_minus_alphas_cumprod_t * noise` and
raises a `TypeError`; we model that as `none`.  Element-wise scalar model over ℚ
(the per-batch-element gather plus broadcast acts independently on scalars). -/

def q_sample (sqrt_alphas_cumprod sqrt_one_minus_alphas_cumprod : ℕ → ℚ)
    (x_start : ℚ) (t : ℕ) (noise : Option ℚ) : Option ℚ :=
  match noise with
  | none => none
  | some n => some (sqrt_alphas_cumprod t * x_start + sqrt_one_minus_alphas_cumprod t * n)

/-- `extract_x0(x_t, epsilon, t, ...) = (x_t - sqrt_one_minus_alphas_cumprod[t] * epsilon) / sqrt_alphas_cumprod[t]`. -/
def extract_x0 (sqrt_alphas_cumprod sqrt_one_minus_alphas_cumprod : ℕ → ℚ)
    (x_t epsilon : ℚ) (t : ℕ) : ℚ :=
  (x_t - sqrt_one_minus_alphas_cumprod t * epsilon) / sqrt_alphas_cumprod t

/-! ### Noise schedule (`cosine_beta_schedule` and the derived arrays of
`SpecRollDiffusion.__init__` / `LatentRollDiffusion.__init__`)

The cosine involves transcendental functions, so this part is modelled over ℝ. -/

/-- `torch.clip(x, lo, hi) = min(max(x, lo), hi)`. -/
noncomputable def clip (x lo hi : ℝ) : ℝ := min (max x lo) hi

/-- The unnormalized cosine curve sampled at integer point `x`:
`cos(((x/timesteps) + s) / (1 + s) * π * 0.5) ** 2`. -/
noncomputable def cosineAlphasRaw (timesteps : ℕ) (s : ℝ) (x : ℕ) : ℝ :=
  Real.cos (((x : ℝ) / (timesteps : ℝ) + s) / (1 + s) * Real.pi * 0.5) ^ 2

/-- `alphas_cumprod = alphas_cumprod / alphas_cumprod[0]` inside `cosine_beta_schedule`. -/
noncomputable def cosineAlphasCumprod (timesteps : ℕ) (s : ℝ) (x : ℕ) : ℝ :=
  cosineAlphasRaw timesteps s x / cosineAlphasRaw timesteps s 0

/-- One entry of `betas = clip(1 - alphas_cumprod[1:] / alphas_cumprod[:-1], 0.0001, 0.9999)`. -/
noncomputable def cosineBeta (timesteps t : ℕ) : ℝ :=
  clip (1 - cosineAlphasCumprod timesteps 0.008 (t + 1) / cosineAlphasCumprod timesteps 0.008 t)
    0.0001 0.9999

/-- `cosine_beta_schedule(timesteps)`: the list of `timesteps` clipped betas. -/
noncomputable def cosine_beta_schedule (timesteps : ℕ) : List ℝ :=
  (List.range timesteps).map (cosineBeta timesteps)

/-- `alphas = 1. - self.betas` in `__init__` (both diffusion modules). -/
noncomputable def alphas (T t : ℕ) : ℝ := 1 - cosineBeta T t

/-- `alphas_cumprod = torch.cumprod(alphas, axis=0)`: product of `alphas[0..t]`. -/
noncomputable def alphas_cumprod (T t : ℕ) : ℝ := ∏ i ∈ Finset.range (t + 1), alphas T i

/-- `alphas_cumprod_prev = F.pad(alphas_cumprod[:-1], (1, 0), value=1.0)`:
entry 0 is the padded `1.0`, entry `t ≥ 1` is `alphas_cumprod[t-1]`. -/
noncomputable def alphas_cumprod_prev (T t : ℕ) : ℝ :=
  if t = 0 then 1 else alphas_cumprod T (t - 1)

/-- `self.sqrt_recip_alphas = torch.sqrt(1.0 / alphas)`. -/
noncomputable def sqrt_recip_alphas (T t : ℕ) : ℝ := Real.sqrt (1 / alphas T t)

/-- `self.sqrt_alphas_cumprod = torch.sqrt(alphas_cumprod)`. -/
noncomputable def sqrt_alphas_cumprod (T t : ℕ) : ℝ := Real.sqrt (alphas_cumprod T t)

/-- `self.sqrt_one_minus_alphas_cumprod = torch.sqrt(1. - alphas_cumprod)`. -/
noncomputable def sqrt_one_minus_alphas_cumprod (T t : ℕ) : ℝ :=
  Real.sqrt (1 - alphas_cumprod T t)

/-- `self.posterior_variance = self.betas * (1. - alphas_cumprod_prev) / (1 - alphas_cumprod)`. -/
noncomputable def posterior_variance (T t : ℕ) : ℝ :=
  cosineBeta T t * (1 - alphas_cumprod_prev T t) / (1 - alphas_cumprod T t)

/-! ### Reverse-step strategies

The method bodies are identical in `SpecRollDiffusion` and `LatentRollDiffusion`,
so each strategy is embedded once.  Element-wise scalar model: the state `x`, the
network outputs (`epsilon`, `x0_pred_c`, ...) and the side channel
(`spec` / `latent_features`) are scalars supplied as arguments (the network is an
external collaborator), and the fresh `torch.randn_like(x)` draw of the stochastic
branch is the explicit argument `z`.  `w` is `self.hparams.sampling.w`. -/

/-- `ddpm`: epsilon-parameterized stochastic step. -/
noncomputable def ddpm (T : ℕ) (x epsilon spec z : ℝ) (t_index : ℕ) : ℝ × ℝ :=
  let betas_t := cosineBeta T t_index
  let sqrt_one_minus_alphas_cumprod_t := sqrt_one_minus_alphas_cumprod T t_index
  let sqrt_recip_alphas_t := sqrt_recip_alphas T t_index
  let model_mean := sqrt_recip_alphas_t *
    (x - betas_t * epsilon / sqrt_one_minus_alphas_cumprod_t)
  if t_index = 0 then (model_mean, spec)
  else (model_mean + Real.sqrt (posterior_variance T t_index) * z, spec)

/-- `ddpm_x0`: x0-parameterized stochastic step.  (In the `t_index == 0` branch
the source also computes a `sigma` that the returned mean never uses.) -/
noncomputable def ddpm_x0 (T : ℕ) (x x0_pred spec z : ℝ) (t_index : ℕ) : ℝ × ℝ :=
  if t_index = 0 then
    (x0_pred / sqrt_alphas_cumprod T t_index, spec)
  else
    let sigma := sqrt_one_minus_alphas_cumprod T (t_index - 1) /
      sqrt_one_minus_alphas_cumprod T t_index * Real.sqrt (1 - alphas T t_index)
    (sqrt_alphas_cumprod T (t_index - 1) * x0_pred +
      Real.sqrt (1 - sqrt_alphas_cumprod T (t_index - 1) ^ 2 - sigma ^ 2) *
        (x - sqrt_alphas_cumprod T t_index * x0_pred) /
        sqrt_one_minus_alphas_cumprod T t_index +
      sigma * z, spec)

/-- `ddim_x0`: same structural form as `ddpm_x0` with `sigma = 0`. -/
noncomputable def ddim_x0 (T : ℕ) (x x0_pred spec z : ℝ) (t_index : ℕ) : ℝ × ℝ :=
  if t_index = 0 then
    (x0_pred / sqrt_alphas_cumprod T t_index, spec)
  else
    let sigma : ℝ := 0
    (sqrt_alphas_cumprod T (t_index - 1) * x0_pred +
      Real.sqrt (1 - sqrt_alphas_cumprod T (t_index - 1) ^ 2 - sigma ^ 2) *
        (x - sqrt_alphas_cumprod T t_index * x0_pred) /
        sqrt_one_minus_alphas_cumprod T t_index +
      sigma * z, spec)

/-- `ddim`: epsilon-parameterized deterministic step (no random draw at all). -/
noncomputable def ddim (T : ℕ) (x epsilon spec : ℝ) (t_index : ℕ) : ℝ × ℝ :=
  if t_index = 0 then
    ((x - sqrt_one_minus_alphas_cumprod T t_index * epsilon) /
      sqrt_alphas_cumprod T t_index, spec)
  else
    (sqrt_alphas_cumprod T (t_index - 1) *
        ((x - sqrt_one_minus_alphas_cumprod T t_index * epsilon) /
          sqrt_alphas_cumprod T t_index) +
      sqrt_one_minus_alphas_cumprod T (t_index - 1) * epsilon, spec)

/-- `ddim2ddpm`: ddim-style mean plus a schedule-derived `sigma` noise term. -/
noncomputable def ddim2ddpm (T : ℕ) (x epsilon spec z : ℝ) (t_index : ℕ) : ℝ × ℝ :=
  if t_index = 0 then
    ((x - sqrt_one_minus_alphas_cumprod T t_index * epsilon) /
      sqrt_alphas_cumprod T t_index, spec)
  else
    let sigma := sqrt_one_minus_alphas_cumprod T (t_index - 1) /
      sqrt_one_minus_alphas_cumprod T t_index * Real.sqrt (1 - alphas T t_index)
    (sqrt_alphas_cumprod T (t_index - 1) *
        ((x - sqrt_one_minus_alphas_cumprod T t_index * epsilon) /
          sqrt_alphas_cumprod T t_index) +
      Real.sqrt (1 - sqrt_alphas_cumprod T (t_index - 1) ^ 2 - sigma ^ 2) * epsilon +
      sigma * z, spec)

/-- `cfdg_ddpm_x0`: classifier-free guidance; `x0_pred_c` / `x0_pred_0` are the
conditional / unconditional network predictions, `spec` the conditional side
channel (the unconditional one is discarded as `_` in the source). -/
noncomputable def cfdg_ddpm_x0 (T : ℕ) (w x x0_pred_c x0_pred_0 spec z : ℝ)
    (t_index : ℕ) : ℝ × ℝ :=
  let x0_pred := (1 + w) * x0_pred_c - w * x0_pred_0
  if t_index = 0 then
    (x0_pred / sqrt_alphas_cumprod T t_index, spec)
  else
    let sigma := sqrt_one_minus_alphas_cumprod T (t_index - 1) /
      sqrt_one_minus_alphas_cumprod T t_index * Real.sqrt (1 - alphas T t_index)
    (sqrt_alphas_cumprod T (t_index - 1) * x0_pred +
      Real.sqrt (1 - sqrt_alphas_cumprod T (t_index - 1) ^ 2 - sigma ^ 2) *
        (x - sqrt_alphas_cumprod T t_index * x0_pred) /
        sqrt_one_minus_alphas_cumprod T t_index +
      sigma * z, spec)

/-- `generation_ddpm_x0`: unconditional-only variant; note the source returns the
side channel `_` of the unconditional call. -/
noncomputable def generation_ddpm_x0 (T : ℕ) (x x0_pred_0 spec0 z : ℝ)
    (t_index : ℕ) : ℝ × ℝ :=
  let x0_pred := x0_pred_0
  if t_index = 0 then
    (x0_pred / sqrt_alphas_cumprod T t_index, spec0)
  else
    let sigma := sqrt_one_minus_alphas_cumprod T (t_index - 1) /
      sqrt_one_minus_alphas_cumprod T t_index * Real.sqrt (1 - alphas T t_index)
    (sqrt_alphas_cumprod T (t_index - 1) * x0_pred +
      Real.sqrt (1 - sqrt_alphas_cumprod T (t_index - 1) ^ 2 - sigma ^ 2) *
        (x - sqrt_alphas_cumprod T t_index * x0_pred) /
        sqrt_one_minus_alphas_cumprod T t_index +
      sigma * z, spec0)

/-- `inpainting_ddpm_x0`: the conditional call additionally receives inpainting
masks (opaque to the update formula); the guidance and update are exactly those
of `cfdg_ddpm_x0`. -/
noncomputable def inpainting_ddpm_x0 (T : ℕ) (w x x0_pred_c x0_pred_0 spec z : ℝ)
    (t_index : ℕ) : ℝ × ℝ :=
  let x0_pred := (1 + w) * x0_pred_c - w * x0_pred_0
  if t_index = 0 then
    (x0_pred / sqrt_alphas_cumprod T t_index, spec)
  else
    let sigma := sqrt_one_minus_alphas_cumprod T (t_index - 1) /
      sqrt_one_minus_alphas_cumprod T t_index * Real.sqrt (1 - alphas T t_index)
    (sqrt_alphas_cumprod T (t_index - 1) * x0_pred +
      Real.sqrt (1 - sqrt_alphas_cumprod T (t_index - 1) ^ 2 - sigma ^ 2) *
        (x - sqrt_alphas_cumprod T t_index * x0_pred) /
        sqrt_one_minus_alphas_cumprod T t_index +
      sigma * z, spec)

/-- `cfdg_ddim_x0`: guided x0 followed by the `ddim_x0`-style deterministic
update (`sigma = 0`). -/
noncomputable def cfdg_ddim_x0 (T : ℕ) (w x x0_pred_c x0_pred_0 spec z : ℝ)
    (t_index : ℕ) : ℝ × ℝ :=
  let x0_pred := (1 + w) * x0_pred_c - w * x0_pred_0
  if t_index = 0 then
    (x0_pred / sqrt_alphas_cumprod T t_index, spec)
  else
    let sigma : ℝ := 0
    (sqrt_alphas_cumprod T (t_index - 1) * x0_pred +
      Real.sqrt (1 - sqrt_alphas_cumprod T (t_index - 1) ^ 2 - sigma ^ 2) *
        (x - sqrt_alphas_cumprod T t_index * x0_pred) /
        sqrt_one_minus_alphas_cumprod T t_index +
      sigma * z, spec)

/-! ### Sampling loops (`SpecRollDiffusion.sampling`, `LatentRollDiffusion.sampling`)

The driver is polymorphic over the strategy; we abstract the state type and the
one-step call `step : α → ℕ → α` (state, `t_index` ↦ next state; condition and
side channel are fixed throughout a run). -/

/-- The body of the descending `for t_index in reversed(range(0, n))` loop:
one strategy invocation per listed `t_index`, feeding each step's output state
into the next step and recording `(state, t_index)`. -/
def sampleLoop {α : Type} (step : α → ℕ → α) : List ℕ → α → List (α × ℕ)
  | [], _ => []
  | t :: ts, x =>
    let x2 := step x t
    (x2, t) :: sampleLoop step ts x2

/-- `LatentRollDiffusion.sampling`: start from pure noise recorded as
`(noise, timesteps)`, then loop `t_index` over `reversed(range(0, timesteps))`. -/
def latentRollSampling {α : Type} (step : α → ℕ → α) (noise : α) (timesteps : ℕ) :
    List (α × ℕ) :=
  (noise, timesteps) :: sampleLoop step (List.range timesteps).reverse noise

/-- `SpecRollDiffusion.sampling`: the live code path contains a leftover block
marked `------- DEBUG-------`: `fixed_t = 175`, the start state is the clean
roll corrupted by `q_sample` at `t = fixed_t - 1` (here the abstract `x_t`),
recorded as `(x_t, fixed_t)`, and the loop runs `t_index` over
`reversed(range(0, fixed_t))` — the configured `self.hparams.timesteps` is
never read by the loop. -/
def specRollSampling {α : Type} (step : α → ℕ → α) (x_t : α) (timesteps : ℕ) :
    List (α × ℕ) :=
  let fixed_t := 175
  (x_t, fixed_t) :: sampleLoop step (List.range fixed_t).reverse x_t

/-! ### Configuration dispatch and loss selection -/

/-- The method names defined in the class body of `SpecRollDiffusion`. -/
def specRollMethods : List String :=
  ["training_step", "validation_step", "test_step", "predict_step",
   "visualize_figure", "step", "sampling", "p_losses",
   "ddpm", "ddpm_x0", "ddim_x0", "ddim", "ddim2ddpm",
   "cfdg_ddpm_x0", "generation_ddpm_x0", "inpainting_ddpm_x0", "cfdg_ddim_x0",
   "configure_optimizers", "animate_sampling"]

/-- The instance attributes `SpecRollDiffusion.__init__` assigns before the
`getattr(self, sampling.type)` line: the hyperparameters and the schedule
arrays.  (`self.alphas` is assigned only on the line after the `getattr`, so
it is not yet an attribute at lookup time.) -/
def specRollInstanceAttrs : List String :=
  ["hparams", "betas", "sqrt_recip_alphas", "sqrt_alphas_cumprod",
   "sqrt_one_minus_alphas_cumprod", "posterior_variance", "inner_loop"]

/-- `SpecRollDiffusion.__init__` restricted to its configuration-validation
behavior.  The only name-dependent failure is
`self.reverse_diffusion = getattr(self, sampling.type)`, and Python's
`getattr` succeeds on *any* attribute of the object: the class-body methods,
the instance attributes already assigned, and the open-ended set of names
inherited from `pl.LightningModule` / `nn.Module` / `object`
(`"forward"`, `"eval"`, `"parameters"`, ...).  The inherited set lives outside
this repository, so it is the parameter `inherited`.  Only a name in none of
the three pools raises `AttributeError`.  The `loss_type` string is stored in
the hyperparameters but never inspected at construction. -/
def specRollInit (inherited : List String) (sampling_type loss_type : String) :
    Except String Unit :=
  if sampling_type ∈ specRollMethods ∨ sampling_type ∈ specRollInstanceAttrs ∨
      sampling_type ∈ inherited then Except.ok ()
  else Except.error "AttributeError"

/-- `p_losses(label, prediction, loss_type)`: element-wise scalar model of the
three reductions (`F.l1_loss`, `F.mse_loss`, `F.smooth_l1_loss` with beta 1);
any other `loss_type` raises `NotImplementedError`. -/
def p_losses (label prediction : ℚ) (loss_type : String) : Except String ℚ :=
  if loss_type = "l1" then Except.ok |label - prediction|
  else if loss_type = "l2" then Except.ok ((label - prediction) ^ 2)
  else if loss_type = "huber" then
    Except.ok (if |label - prediction| < 1 then (label - prediction) ^ 2 / 2
      else |label - prediction| - 1 / 2)
  else Except.error "NotImplementedError"

/-! ### Note extraction (`extract_notes_wo_velocity`)

The input grids are functions of (time-frame, pitch-bin) over the index
rectangle `[0, n_frames) × [0, bins)`. -/

/-- The inner `while onsets[offset, pitch] or frames[offset, pitch]` scan of
`extract_notes_wo_velocity`, including the `break` once
`offset == onsets.shape[0]`; `fuel` is the remaining distance to `n_frames`. -/
def noteOffset (o f : ℕ → ℕ → Bool) (pitch : ℕ) : ℕ → ℕ → ℕ
  | 0, offset => offset
  | fuel + 1, offset =>
    if o offset pitch || f offset pitch then noteOffset o f pitch fuel (offset + 1)
    else offset

/-- `(onsets > onset_threshold).astype(int)` as a Boolean mask. -/
def binarize (thr : ℚ) (g : ℕ → ℕ → ℚ) : ℕ → ℕ → Bool :=
  fun i p => decide (thr < g i p)

/-- `onset_diff = concatenate([onsets[:1], onsets[1:] - onsets[:-1]]) == 1`:
row 0 compares the mask itself to 1; row `i ≥ 1` asks for a rising edge. -/
def onsetDiff (o : ℕ → ℕ → Bool) : ℕ → ℕ → Bool :=
  fun i p => if i = 0 then o 0 p else o i p && !o (i - 1) p

/-- `np.nonzero(onset_diff)` zipped back into `(frame, pitch)` pairs, in
row-major order. -/
def noteLocations (n_frames bins : ℕ) (od : ℕ → ℕ → Bool) : List (ℕ × ℕ) :=
  (List.range n_frames).flatMap fun i =>
    (List.range bins).filterMap fun p => if od i p then some (i, p) else none

/-- The body of the `for frame, pitch in zip(frame_locs, pitch_locs)` loop:
scan for the offset and keep `(pitch, (onset, offset))` when `offset > onset`. -/
def notePairs (n_frames bins : ℕ) (o f od : ℕ → ℕ → Bool) : List (ℕ × (ℕ × ℕ)) :=
  (noteLocations n_frames bins od).filterMap fun fp =>
    let onset := fp.1
    let offset := noteOffset o f fp.2 (n_frames - fp.1) fp.1
    if onset < offset then some (fp.2, (onset, offset)) else none

/-- `extract_notes_wo_velocity(onsets, frames, onset_threshold, frame_threshold, rule)`:
binarize with strict `>` thresholds, take the first-difference onset mask,
conjoin the frame mask under `rule1`, keep the bare mask under `rule2`, raise
`NameError` on any other rule (`none`), then collect the notes. -/
def extract_notes_wo_velocity (n_frames bins : ℕ) (onsets frames : ℕ → ℕ → ℚ)
    (onset_threshold frame_threshold : ℚ) (rule : String) :
    Option (List ℕ × List (ℕ × ℕ)) :=
  let o := binarize onset_threshold onsets
  let f := binarize frame_threshold frames
  match (if rule = "rule2" then some (onsetDiff o)
    else if rule = "rule1" then some (fun i p => onsetDiff o i p && f i p)
    else none) with
  | none => none
  | some od =>
    let notes := notePairs n_frames bins o f od
    some (notes.map Prod.fst, notes.map Prod.snd)

end Diffusion

namespace Diffusion

/-- C3: round-trip — with the noise supplied to `extract_x0` equal to the noise
injected by `q_sample`, the clean sample is recovered exactly whenever
`sqrt_alphas_cumprod[t]` is nonzero. -/
theorem qsample_extractx0_roundtrip
    (sac soc : ℕ → ℚ) (x0 n : ℚ) (t : ℕ) (x_t : ℚ)
    (hq : q_sample sac soc x0 t (some n) = some x_t)
    (hs : sac t ≠ 0) :
    extract_x0 sac soc x_t n t = x0 := by
  simp only [q_sample, Option.some.injEq] at hq
  subst hq
  field_simp [extract_x0]

/-- Witness for C3 at a concrete input. -/
theorem qsample_extractx0_roundtrip_witness :
    extract_x0 (fun _ => (1 : ℚ)/2) (fun _ => (1 : ℚ)/3) ((1:ℚ)/2 * 5 + (1:ℚ)/3 * 7) 7 0 = 5 :=
  qsample_extractx0_roundtrip (fun _ => (1 : ℚ)/2) (fun _ => (1 : ℚ)/3) 5 7 0 _
    rfl (by norm_num)

/-- C5 (code evaluated at the failing input): calling `q_sample` without a noise
argument does not draw fresh noise — the multiplication with `None` fails, which
the embedding records as `none`. -/
theorem qsample_none_fails :
    q_sample (fun _ => (1 : ℚ)) (fun _ => (1 : ℚ)) 0 0 none = none := rfl

theorem clip_le_hi (x lo hi : ℝ) : clip x lo hi ≤ hi := min_le_right _ _

theorem lo_le_clip (x lo hi : ℝ) (h : lo ≤ hi) : lo ≤ clip x lo hi :=
  le_min (le_max_right _ _) h

theorem cosineBeta_mem (T t : ℕ) : 0.0001 ≤ cosineBeta T t ∧ cosineBeta T t ≤ 0.9999 :=
  ⟨lo_le_clip _ _ _ (by norm_num), clip_le_hi _ _ _⟩

theorem alphas_mem (T t : ℕ) : 0.0001 ≤ alphas T t ∧ alphas T t ≤ 0.9999 := by
  obtain ⟨h1, h2⟩ := cosineBeta_mem T t
  constructor <;> simp only [alphas] <;> linarith

theorem alphas_cumprod_pos (T t : ℕ) : 0 < alphas_cumprod T t := by
  refine Finset.prod_pos fun i _ => ?_
  linarith [(alphas_mem T i).1]

theorem alphas_cumprod_succ (T t : ℕ) :
    alphas_cumprod T (t + 1) = alphas_cumprod T t * alphas T (t + 1) :=
  Finset.prod_range_succ _ _

theorem alphas_cumprod_succ_lt (T t : ℕ) :
    alphas_cumprod T (t + 1) < alphas_cumprod T t := by
  rw [alphas_cumprod_succ]
  have hpos := alphas_cumprod_pos T t
  have hlt : alphas T (t + 1) < 1 := by linarith [(alphas_mem T (t + 1)).2]
  nlinarith

theorem alphas_cumprod_strictAnti (T : ℕ) : StrictAnti (alphas_cumprod T) :=
  strictAnti_nat_of_succ_lt (alphas_cumprod_succ_lt T)

theorem alphas_cumprod_lt_one (T t : ℕ) : alphas_cumprod T t < 1 := by
  have h0 : alphas_cumprod T 0 = alphas T 0 := by
    simp [alphas_cumprod]
  have hle : alphas_cumprod T t ≤ alphas_cumprod T 0 :=
    (alphas_cumprod_strictAnti T).antitone (Nat.zero_le t)
  have := (alphas_mem T 0).2
  calc alphas_cumprod T t ≤ alphas_cumprod T 0 := hle
    _ = alphas T 0 := h0
    _ ≤ 0.9999 := this
    _ < 1 := by norm_num

/-- C6: a cosine schedule with `timesteps = 10` yields exactly 10 beta values,
each clipped into `[1e-4, 0.9999]`; the derived `alphas_cumprod` sequence is
monotonically non-increasing, and `alphas_cumprod[9] < alphas_cumprod[0]`. -/
theorem cosine_schedule_timesteps_10 :
    (cosine_beta_schedule 10).length = 10 ∧
    (∀ b ∈ cosine_beta_schedule 10, 0.0001 ≤ b ∧ b ≤ 0.9999) ∧
    (∀ t, alphas_cumprod 10 (t + 1) ≤ alphas_cumprod 10 t) ∧
    alphas_cumprod 10 9 < alphas_cumprod 10 0 := by
  refine ⟨by simp [cosine_beta_schedule], ?_, ?_, ?_⟩
  · intro b hb
    simp only [cosine_beta_schedule, List.mem_map] at hb
    obtain ⟨t, -, rfl⟩ := hb
    exact cosineBeta_mem 10 t
  · exact fun t => (alphas_cumprod_succ_lt 10 t).le
  · exact alphas_cumprod_strictAnti 10 (by norm_num)

/-- Witness for C6 applying the theorem at the concrete first schedule entry. -/
theorem cosine_schedule_timesteps_10_witness :
    0.0001 ≤ cosineBeta 10 0 ∧ cosineBeta 10 0 ≤ 0.9999 :=
  cosine_schedule_timesteps_10.2.1 (cosineBeta 10 0)
    (List.mem_map.mpr ⟨0, by simp, rfl⟩)

/-- C10: for every schedule (any `timesteps ≥ 1`) the padded
`alphas_cumprod_prev[0] = 1` makes `posterior_variance[0]` vanish exactly,
while `posterior_variance[t]` is non-negative for `t ≥ 1`. -/
theorem posterior_variance_zero_and_nonneg (T : ℕ) (hT : 1 ≤ T) :
    posterior_variance T 0 = 0 ∧ ∀ t, 1 ≤ t → 0 ≤ posterior_variance T t := by
  constructor
  · simp [posterior_variance, alphas_cumprod_prev]
  · intro t ht
    have hne : t ≠ 0 := by omega
    have hb := (cosineBeta_mem T t).1
    have hprev : alphas_cumprod_prev T t ≤ 1 := by
      simp only [alphas_cumprod_prev, if_neg hne]
      exact (alphas_cumprod_lt_one T (t - 1)).le
    have hden : 0 < 1 - alphas_cumprod T t := by
      linarith [alphas_cumprod_lt_one T t]
    refine div_nonneg (mul_nonneg (by linarith) (by linarith)) hden.le

/-- Witness for C10 at `timesteps = 10`, `t = 3`. -/
theorem posterior_variance_zero_and_nonneg_witness :
    posterior_variance 10 0 = 0 ∧ 0 ≤ posterior_variance 10 3 :=
  ⟨(posterior_variance_zero_and_nonneg 10 (by norm_num)).1,
   (posterior_variance_zero_and_nonneg 10 (by norm_num)).2 3 (by norm_num)⟩

/-- C2: every stochastic variant omits the noise-injection term at
`t_index = 0` — with identical state, condition and network outputs the output
does not depend on the random draw, so two runs agree exactly. -/
theorem stochastic_variants_deterministic_at_zero
    (T : ℕ) (w x epsilon x0c x00 spec spec0 z z2 : ℝ) :
    ddpm T x epsilon spec z 0 = ddpm T x epsilon spec z2 0 ∧
    ddpm_x0 T x x0c spec z 0 = ddpm_x0 T x x0c spec z2 0 ∧
    ddim2ddpm T x epsilon spec z 0 = ddim2ddpm T x epsilon spec z2 0 ∧
    cfdg_ddpm_x0 T w x x0c x00 spec z 0 = cfdg_ddpm_x0 T w x x0c x00 spec z2 0 ∧
    generation_ddpm_x0 T x x00 spec0 z 0 = generation_ddpm_x0 T x x00 spec0 z2 0 ∧
    inpainting_ddpm_x0 T w x x0c x00 spec z 0 = inpainting_ddpm_x0 T w x x0c x00 spec z2 0 := by
  refine ⟨?_, ?_, ?_, ?_, ?_, ?_⟩ <;>
    simp [ddpm, ddpm_x0, ddim2ddpm, cfdg_ddpm_x0, generation_ddpm_x0, inpainting_ddpm_x0]

/-- C4: with guidance weight `w = 0`, `cfdg_ddpm_x0` coincides with `ddpm_x0`
on every input, timestep and noise draw, conditional prediction and side
channel being equal: `(1+0)·x0_c − 0·x0_0 = x0_c`. -/
theorem cfdg_ddpm_x0_w_zero_eq_ddpm_x0
    (T : ℕ) (x x0c x00 spec z : ℝ) (t_index : ℕ) :
    cfdg_ddpm_x0 T 0 x x0c x00 spec z t_index = ddpm_x0 T x x0c spec z t_index := by
  by_cases h : t_index = 0 <;> simp [cfdg_ddpm_x0, ddpm_x0, h]

theorem sampleLoop_length {α : Type} (step : α → ℕ → α) :
    ∀ (ts : List ℕ) (x : α), (sampleLoop step ts x).length = ts.length := by
  intro ts
  induction ts with
  | nil => intro x; rfl
  | cons t ts ih => intro x; simp [sampleLoop, ih]

theorem sampleLoop_map_snd {α : Type} (step : α → ℕ → α) :
    ∀ (ts : List ℕ) (x : α), (sampleLoop step ts x).map Prod.snd = ts := by
  intro ts
  induction ts with
  | nil => intro x; rfl
  | cons t ts ih => intro x; simp [sampleLoop, ih]

theorem sampleLoop_chain {α : Type} (step : α → ℕ → α) :
    ∀ (ts : List ℕ) (x : α) (t0 : ℕ),
      List.Chain' (fun p q => q.1 = step p.1 q.2) ((x, t0) :: sampleLoop step ts x) := by
  intro ts
  induction ts with
  | nil => intro x t0; simp [sampleLoop]
  | cons t ts ih =>
    intro x t0
    exact List.Chain'.cons rfl (ih (step x t) t)

theorem range_reverse_succ (n : ℕ) :
    (List.range (n + 1)).reverse = n :: (List.range n).reverse := by
  simp [List.range_succ]

/-- C1 (code evaluated at the failing behavior, plus the part of the claim the
code does satisfy): `LatentRollDiffusion.sampling` runs the strategy once per
`t_index` in `T-1, ..., 0`, chains the states, and returns a `T+1`-entry trace
with recorded `t` values `T, T-1, ..., 0`; but `SpecRollDiffusion.sampling`
always produces a 176-entry trace with `t` values `175, ..., 0` — 175 strategy
invocations no matter what `timesteps` the module was configured with. -/
theorem sampling_loop_trace (α : Type) (step : α → ℕ → α) (x0 : α) (T : ℕ) :
    ((latentRollSampling step x0 T).length = T + 1 ∧
      (latentRollSampling step x0 T).map Prod.snd = (List.range (T + 1)).reverse ∧
      List.Chain' (fun p q => q.1 = step p.1 q.2) (latentRollSampling step x0 T)) ∧
    ((specRollSampling step x0 T).length = 176 ∧
      (specRollSampling step x0 T).map Prod.snd = (List.range 176).reverse ∧
      List.Chain' (fun p q => q.1 = step p.1 q.2) (specRollSampling step x0 T)) := by
  refine ⟨⟨?_, ?_, ?_⟩, ?_, ?_, ?_⟩
  · simp [latentRollSampling, sampleLoop_length]
  · simp [latentRollSampling, sampleLoop_map_snd, range_reverse_succ]
  · exact sampleLoop_chain step _ x0 T
  · simp [specRollSampling, sampleLoop_length]
  · rw [show (176 : ℕ) = 175 + 1 from rfl, range_reverse_succ]
    simp [specRollSampling, sampleLoop_map_snd]
  · exact sampleLoop_chain step _ x0 175

/-- C8: every x0-parameterized variant collapses at `t_index = 0` to
`x0_estimate / sqrt_alphas_cumprod[0]` (for guided variants the estimate is the
guided one), with no dependence on the current state `x`. -/
theorem x0_variants_terminal_mean
    (T : ℕ) (w x x0p x0c x00 spec spec0 z : ℝ) :
    (ddpm_x0 T x x0p spec z 0).1 = x0p / sqrt_alphas_cumprod T 0 ∧
    (ddim_x0 T x x0p spec z 0).1 = x0p / sqrt_alphas_cumprod T 0 ∧
    (cfdg_ddpm_x0 T w x x0c x00 spec z 0).1 =
      ((1 + w) * x0c - w * x00) / sqrt_alphas_cumprod T 0 ∧
    (cfdg_ddim_x0 T w x x0c x00 spec z 0).1 =
      ((1 + w) * x0c - w * x00) / sqrt_alphas_cumprod T 0 ∧
    (generation_ddpm_x0 T x x00 spec0 z 0).1 = x00 / sqrt_alphas_cumprod T 0 ∧
    (inpainting_ddpm_x0 T w x x0c x00 spec z 0).1 =
      ((1 + w) * x0c - w * x00) / sqrt_alphas_cumprod T 0 := by
  refine ⟨?_, ?_, ?_, ?_, ?_, ?_⟩ <;>
    simp [ddpm_x0, ddim_x0, cfdg_ddpm_x0, cfdg_ddim_x0, generation_ddpm_x0, inpainting_ddpm_x0]

/-- C7 counterexample: a module constructs successfully with a recognized
variant but a completely unrecognized loss-type string — loss-type validation
does not happen at construction time. -/
theorem unrecognized_loss_accepted_at_construction :
    specRollInit ["forward", "eval", "parameters"] "ddpm" "not_a_loss" = Except.ok () := by
  simp [specRollInit, specRollMethods]

/-- C7 amended: a sampling-variant name that is not an attribute of the module
at all — not a class-body method, not an already-assigned instance attribute,
not inherited — fails at construction (`getattr` raises `AttributeError`);
construction succeeds for every recognized variant name no matter the loss
string; but a name matching any existing non-variant attribute (e.g.
`"forward"`, `"betas"`) is silently accepted at construction too; and an
unrecognized loss type fails only when `p_losses` is first invoked
(`NotImplementedError`).  Nothing is ever replaced by a default. -/
theorem config_failure_semantics
    (inherited : List String) (v l : String) (label prediction : ℚ)
    (hv : v ∉ specRollMethods ∧ v ∉ specRollInstanceAttrs ∧ v ∉ inherited)
    (hl : l ∉ (["l1", "l2", "huber"] : List String)) :
    specRollInit inherited v l = Except.error "AttributeError" ∧
    (∀ v2 ∈ specRollMethods, ∀ l2, specRollInit inherited v2 l2 = Except.ok ()) ∧
    (∀ v3 ∈ specRollInstanceAttrs, ∀ l3, specRollInit inherited v3 l3 = Except.ok ()) ∧
    (∀ v4 ∈ inherited, ∀ l4, specRollInit inherited v4 l4 = Except.ok ()) ∧
    p_losses label prediction l = Except.error "NotImplementedError" := by
  obtain ⟨hv1, hv2, hv3⟩ := hv
  refine ⟨?_, ?_, ?_, ?_, ?_⟩
  · simp [specRollInit, hv1, hv2, hv3]
  · intro v2 hm l2
    simp [specRollInit, hm]
  · intro v3 hm l3
    simp [specRollInit, hm]
  · intro v4 hm l4
    simp [specRollInit, hm]
  · simp only [List.mem_cons, List.not_mem_nil, or_false, not_or] at hl
    obtain ⟨h1, h2, h3⟩ := hl
    simp [p_losses, h1, h2, h3]

/-- Witness for C7's amended statement at concrete configuration strings:
`"cfdg_ddpm"` (a commented-out variant) is no attribute and fails,
`"forward"` (inherited, not a variant) is silently accepted, and the loss
string `"l3"` only fails inside `p_losses`. -/
theorem config_failure_semantics_witness :
    specRollInit ["forward", "eval", "parameters"] "cfdg_ddpm" "l3" =
      Except.error "AttributeError" ∧
    specRollInit ["forward", "eval", "parameters"] "forward" "l3" = Except.ok () ∧
    p_losses 0 1 "l3" = Except.error "NotImplementedError" :=
  ⟨(config_failure_semantics ["forward", "eval", "parameters"] "cfdg_ddpm" "l3" 0 1
      ⟨by decide, by decide, by decide⟩ (by decide)).1,
   (config_failure_semantics ["forward", "eval", "parameters"] "cfdg_ddpm" "l3" 0 1
      ⟨by decide, by decide, by decide⟩ (by decide)).2.2.2.1 "forward" (by decide) "l3",
   (config_failure_semantics ["forward", "eval", "parameters"] "cfdg_ddpm" "l3" 0 1
      ⟨by decide, by decide, by decide⟩ (by decide)).2.2.2.2⟩

theorem noteOffset_le (o f : ℕ → ℕ → Bool) (pitch : ℕ) :
    ∀ fuel offset, noteOffset o f pitch fuel offset ≤ offset + fuel := by
  intro fuel
  induction fuel with
  | zero => intro off; simp [noteOffset]
  | succ n ih =>
    intro off
    simp only [noteOffset]
    split
    · have := ih (off + 1)
      omega
    · omega

theorem noteLocations_frame_lt {n_frames bins : ℕ} {od : ℕ → ℕ → Bool}
    {fp : ℕ × ℕ} (h : fp ∈ noteLocations n_frames bins od) : fp.1 < n_frames := by
  simp only [noteLocations, List.mem_flatMap, List.mem_filterMap, List.mem_range] at h
  obtain ⟨i, hi, p, hp, hfp⟩ := h
  split at hfp
  · obtain rfl := Option.some.inj hfp
    exact hi
  · cases hfp

theorem notePairs_sound {n_frames bins : ℕ} (o f od : ℕ → ℕ → Bool) :
    ∀ pr ∈ (notePairs n_frames bins o f od).map Prod.snd,
      pr.1 < pr.2 ∧ pr.2 ≤ n_frames := by
  intro pr hpr
  simp only [List.mem_map, notePairs, List.mem_filterMap] at hpr
  obtain ⟨q, ⟨fp, hfp, hq⟩, rfl⟩ := hpr
  split at hq
  · obtain rfl := Option.some.inj hq
    refine ⟨by assumption, ?_⟩
    have h1 := noteOffset_le o f fp.2 (n_frames - fp.1) fp.1
    have h2 := noteLocations_frame_lt hfp
    simp only
    omega
  · cases hq

theorem notePairs_nil {n_frames bins : ℕ} (o f od : ℕ → ℕ → Bool)
    (h : ∀ i p, od i p = false) : notePairs n_frames bins o f od = [] := by
  have hloc : noteLocations n_frames bins od = [] := by
    simp [noteLocations, List.flatMap_eq_nil_iff, List.filterMap_eq_nil_iff, h]
  simp [notePairs, hloc]

/-- C9: for every input grid, threshold pair and recognized rule,
`extract_notes_wo_velocity` succeeds with pitch and interval lists of equal
length, every interval satisfies `onset < offset ≤ n_frames`, and a grid
entirely at or below both thresholds produces empty lists. -/
theorem extract_notes_wo_velocity_shape
    (n_frames bins : ℕ) (onsets frames : ℕ → ℕ → ℚ)
    (onset_threshold frame_threshold : ℚ) (rule : String)
    (hrule : rule = "rule1" ∨ rule = "rule2") :
    ∃ pitches intervals,
      extract_notes_wo_velocity n_frames bins onsets frames
        onset_threshold frame_threshold rule = some (pitches, intervals) ∧
      pitches.length = intervals.length ∧
      (∀ pr ∈ intervals, pr.1 < pr.2 ∧ pr.2 ≤ n_frames) ∧
      ((∀ i p, onsets i p ≤ onset_threshold ∧ frames i p ≤ frame_threshold) →
        pitches = [] ∧ intervals = []) := by
  have hbin : ∀ i p, (∀ i2 p2, onsets i2 p2 ≤ onset_threshold) →
      binarize onset_threshold onsets i p = false := by
    intro i p hle
    simp [binarize, not_lt.mpr (hle i p)]
  have hdiff : (∀ i2 p2, onsets i2 p2 ≤ onset_threshold) →
      ∀ i p, onsetDiff (binarize onset_threshold onsets) i p = false := by
    intro hle i p
    simp only [onsetDiff]
    split <;> simp [hbin _ _ hle]
  rcases hrule with h | h <;> subst h
  · refine ⟨_, _, rfl, by simp, ?_, ?_⟩
    · exact notePairs_sound _ _ _
    · intro hsmall
      have : notePairs n_frames bins (binarize onset_threshold onsets)
          (binarize frame_threshold frames)
          (fun i p => onsetDiff (binarize onset_threshold onsets) i p &&
            binarize frame_threshold frames i p) = [] := by
        refine notePairs_nil _ _ _ fun i p => ?_
        simp [hdiff (fun i2 p2 => (hsmall i2 p2).1) i p]
      simp [extract_notes_wo_velocity, this]
  · refine ⟨_, _, rfl, by simp, ?_, ?_⟩
    · exact notePairs_sound _ _ _
    · intro hsmall
      have : notePairs n_frames bins (binarize onset_threshold onsets)
          (binarize frame_threshold frames)
          (onsetDiff (binarize onset_threshold onsets)) = [] :=
        notePairs_nil _ _ _ (hdiff fun i2 p2 => (hsmall i2 p2).1)
      simp [extract_notes_wo_velocity, this]

/-- Witness for C9: an all-zero grid against thresholds `1/2` under `rule1`
yields empty pitch and interval lists. -/
theorem extract_notes_wo_velocity_shape_witness :
    extract_notes_wo_velocity 2 1 (fun _ _ => 0) (fun _ _ => 0)
      (1/2) (1/2) "rule1" = some ([], []) := by
  obtain ⟨ps, ivs, heq, -, -, hempty⟩ :=
    extract_notes_wo_velocity_shape 2 1 (fun _ _ => 0) (fun _ _ => 0)
      (1/2) (1/2) "rule1" (Or.inl rfl)
  obtain ⟨h1, h2⟩ := hempty fun i p => ⟨by norm_num, by norm_num⟩
  rw [heq, h1, h2]

end Diffusion
